import Mathlib

/-!
Shallow embedding of the Mini-Motion backend core, translated from the
TypeScript source:

* the mongoose connection cache `connectToDB` (src/mini-motion/lib/db.ts),
  modelled as a state machine over the shared `cached` record, with one step
  per synchronous segment of an `acquire()` call;
* the video schema and the video route handlers GET / POST
  (src/unnamed/part_000 and the second file inside src/unnamed/part_002);
* the register route handler POST (first file inside src/unnamed/part_002)
  together with the user model (src/unnamed/part_001);
* the user schema pre-save password hook (src/unnamed/part_001).
-/

/-! ## Connection cache (src/mini-motion/lib/db.ts)

The source keeps a process-wide record `cached = { conn, promise }`.  Each
`connectToDB()` call runs one synchronous segment: return `conn` if set,
otherwise join `promise` if set, otherwise start a fresh `mongoose.connect`
attempt and store its promise.  When the attempt settles, every caller that
awaited it resumes: in JavaScript all those continuations drain before any
later `connectToDB()` call can run (promise reactions are enqueued adjacently
in the microtask queue), so settlement plus delivery is modelled as one atomic
`resolve` step.  On success each waiter executes `cached.conn = await
cached.promise` (all with the identical resolved value, modelled as a single
write recorded in `connWrites`) and then falls off the function body, which
has no trailing return statement, so the call returns `undefined`; on failure
each waiter executes `cached.promise = null` and rethrows. -/

/-- Result of one underlying `mongoose.connect` attempt: a connection value or
a rejection. -/
inductive Outcome where
  | success (c : Nat)
  | failure
deriving DecidableEq, Repr

/-- What a single `connectToDB()` call delivers to its caller: a normal return
carrying an optional value (`ret none` is the JavaScript `undefined`), or a
thrown error. -/
inductive CallRes where
  | ret (v : Option Nat)
  | thrown
deriving DecidableEq, Repr

/-- Return behaviour of a call that awaited the shared promise: on success the
function body ends without a return statement (so the caller receives
`undefined`); on failure the error is rethrown. -/
def jsResult : Outcome → CallRes
  | Outcome.success _ => CallRes.ret none
  | Outcome.failure => CallRes.thrown

/-- State of the connection cache plus bookkeeping for the proof: `conn` and
`promise` are the two fields of the source `cached` record (`promise` holds
the id of the stored attempt), `startedAttempts` lists every
`mongoose.connect` call made, `resolvedAttempts` the attempts that have
settled, `waiters` the calls currently awaiting an attempt, `results` the
value delivered to each finished call, and `connWrites` every value ever
written into `cached.conn`. -/
structure CacheState where
  conn : Option Nat
  promise : Option Nat
  nextId : Nat
  startedAttempts : List Nat
  resolvedAttempts : List (Nat × Outcome)
  waiters : List (Nat × Nat)
  results : List (Nat × CallRes)
  connWrites : List Nat
deriving DecidableEq, Repr

/-- The cache record at process start: `{ conn: null, promise: null }`. -/
def initCache : CacheState := ⟨none, none, 0, [], [], [], [], []⟩

/-- One scheduler event: the synchronous segment of a new `connectToDB()` call
by caller `cid`, or settlement of the in-flight attempt with outcome `o`. -/
inductive Event where
  | call (cid : Nat)
  | resolve (o : Outcome)
deriving DecidableEq, Repr

/-- Whether attempt `a` has already settled. -/
def isResolved (s : CacheState) (a : Nat) : Bool :=
  s.resolvedAttempts.any (fun p => p.1 == a)

/-- Transition function of the cache, following db.ts line by line.
`call`: `if (cached.conn) return cached.conn;` then
`if (!cached.promise) cached.promise = mongoose.connect(...)` and the caller
awaits the stored promise.  `resolve`: the in-flight attempt settles and all
its waiters resume; on success `cached.conn` is written with the resolved
connection and `cached.promise` is left in place; on failure the catch block
sets `cached.promise = null` and the error propagates to every waiter. -/
def step (s : CacheState) : Event → CacheState
  | Event.call cid =>
    match s.conn with
    | some c => { s with results := s.results ++ [(cid, CallRes.ret (some c))] }
    | none =>
      match s.promise with
      | some a => { s with waiters := s.waiters ++ [(cid, a)] }
      | none =>
        { s with
            promise := some s.nextId,
            nextId := s.nextId + 1,
            startedAttempts := s.startedAttempts ++ [s.nextId],
            waiters := s.waiters ++ [(cid, s.nextId)] }
  | Event.resolve o =>
    match s.promise with
    | none => s
    | some a =>
      if isResolved s a then s
      else
        let done := s.waiters.filter (fun w => w.2 == a)
        let rest := s.waiters.filter (fun w => w.2 != a)
        match o with
        | Outcome.success c =>
          { s with
              resolvedAttempts := s.resolvedAttempts ++ [(a, o)],
              results := s.results ++ done.map (fun w => (w.1, jsResult o)),
              waiters := rest,
              conn := some c,
              connWrites := s.connWrites ++ [c] }
        | Outcome.failure =>
          { s with
              resolvedAttempts := s.resolvedAttempts ++ [(a, o)],
              results := s.results ++ done.map (fun w => (w.1, jsResult o)),
              waiters := rest,
              promise := none }

/-- Run a sequence of events from the initial cache state. -/
def run (es : List Event) : CacheState := es.foldl step initCache

/-- Attempts that have been started but have not settled: the connection
attempts currently outstanding. -/
def outstanding (s : CacheState) : List Nat :=
  s.startedAttempts.filter (fun a => ! isResolved s a)

/-- N (distinct) `connectToDB()` calls, all issued before anything settles. -/
def calls (n : Nat) : List Event := (List.range n).map Event.call

/-- Reachability invariant of the cache state machine. -/
structure CacheInv (s : CacheState) : Prop where
  started_nodup : s.startedAttempts.Nodup
  started_lt : ∀ a ∈ s.startedAttempts, a < s.nextId
  resolved_started : ∀ p ∈ s.resolvedAttempts, p.1 ∈ s.startedAttempts
  promise_started : ∀ a, s.promise = some a → a ∈ s.startedAttempts
  out_promise : ∀ a ∈ outstanding s, s.promise = some a
  out_conn : outstanding s ≠ [] → s.conn = none
  conn_last : s.conn = s.connWrites.getLast?
  writes_le : s.connWrites.length ≤ 1
  writes_success : ∀ c ∈ s.connWrites, ∃ a, (a, Outcome.success c) ∈ s.resolvedAttempts

/-! ## Video model and routes (src/unnamed/part_000, part_002 second file) -/

/-- Candidate `transformations` object inside a request body; every field may
be absent. -/
structure CandTransformations where
  height : Option Nat
  width : Option Nat
  quality : Option Nat
deriving DecidableEq, Repr

/-- Request body of the video POST route (`TVideo` as received from
`request.json()`): every field may be absent. -/
structure VideoBody where
  title : Option String
  description : Option String
  videoURL : Option String
  thumbnailURL : Option String
  controls : Option Bool
  transformations : Option CandTransformations
deriving DecidableEq, Repr

/-- JavaScript falsiness of an optional string field: absent or empty. -/
def isFalsyStr : Option String → Bool
  | none => true
  | some s => decide (s = "")

/-- Mongoose `required: true` check for a string path: the value must be
present and non-empty. -/
def requiredOk : Option String → Bool
  | none => false
  | some s => decide (s ≠ "")

/-- A persisted video document (`timestamps: true` adds `createdAt`). -/
structure StoredVideo where
  title : String
  description : String
  videoURL : String
  thumbnailURL : String
  controls : Bool
  height : Nat
  width : Nat
  quality : Nat
  createdAt : Nat
deriving DecidableEq, Repr

/-- The `videoData` object the POST handler passes to `Video.create`: the
spread of the body with `controls`, `transformations.height`,
`transformations.width` and `transformations.quality` overwritten. -/
structure VideoData where
  title : Option String
  description : Option String
  videoURL : Option String
  thumbnailURL : Option String
  controls : Bool
  height : Nat
  width : Nat
  quality : Nat
deriving DecidableEq, Repr

/-- Mongoose `Video.create` against `videoSchema` (src/unnamed/part_000):
`title`, `description`, `videoURL`, `thumbnailURL` are `required`, and
`quality` carries the validators `min: 1, max: 100`; a document violating a
validator is rejected (mongoose throws a ValidationError before anything is
sent to the store), otherwise the document is appended to the store with a
creation timestamp. -/
def videoCreate (store : List StoredVideo) (now : Nat) (d : VideoData) :
    Except String (List StoredVideo × StoredVideo) :=
  if requiredOk d.title && requiredOk d.description && requiredOk d.videoURL &&
      requiredOk d.thumbnailURL && decide (1 ≤ d.quality) && decide (d.quality ≤ 100) then
    let doc0 : StoredVideo :=
      { title := d.title.getD "", description := d.description.getD "",
        videoURL := d.videoURL.getD "", thumbnailURL := d.thumbnailURL.getD "",
        controls := d.controls, height := d.height, width := d.width,
        quality := d.quality, createdAt := now }
    Except.ok (store ++ [doc0], doc0)
  else Except.error "ValidationError"

/-- Observable interactions of a handler with the store layer: acquiring the
database connection (`connectToDB()`), and invoking a store write
(`Video.create`). -/
inductive StoreAction where
  | acquire
  | write
deriving DecidableEq, Repr

/-- Responses of the video POST route: 401, 400 (missing required fields),
200 with the created document, or the catch-all 500. -/
inductive VideoPostRes where
  | unauthorized
  | missingFields
  | created (v : StoredVideo)
  | uploadFailed
deriving DecidableEq, Repr

/-- The video POST handler (second file of src/unnamed/part_002), in source
order: session check, `await connectToDB()`, parse body, the field check
`!body.title || !body.thumbnailURL || !body.videoURL || !body.thumbnailURL`
(the source tests `thumbnailURL` twice and never tests `description`), build
`videoData` with `controls: body?.controls ?? true` and `transformations`
fixed to height 1920, width 1080 and
`quality: body?.transformations?.quality ?? 100`, then `Video.create`.
Returns the response, the resulting store, and the chronological list of
store-layer actions performed. -/
def videoPOST (hasSession : Bool) (store : List StoredVideo) (now : Nat)
    (body : VideoBody) : VideoPostRes × List StoredVideo × List StoreAction :=
  if hasSession then
    if isFalsyStr body.title || isFalsyStr body.thumbnailURL ||
        isFalsyStr body.videoURL || isFalsyStr body.thumbnailURL then
      (VideoPostRes.missingFields, store, [StoreAction.acquire])
    else
      let d : VideoData :=
        { title := body.title, description := body.description,
          videoURL := body.videoURL, thumbnailURL := body.thumbnailURL,
          controls := body.controls.getD true,
          height := 1920, width := 1080,
          quality := (body.transformations.bind (fun t => t.quality)).getD 100 }
      match videoCreate store now d with
      | Except.ok (st2, v) => (VideoPostRes.created v, st2, [StoreAction.acquire, StoreAction.write])
      | Except.error _ => (VideoPostRes.uploadFailed, store, [StoreAction.acquire, StoreAction.write])
  else (VideoPostRes.unauthorized, store, [])

/-- Value of a named field of a stored video document, as seen by a MongoDB
sort: the schema only defines the timestamp field `createdAt`; any other key
is absent from every document. -/
def fieldVal (v : StoredVideo) (key : String) : Option Nat :=
  if key = "createdAt" then some v.createdAt else none

/-- Sort key with MongoDB semantics for a missing field (missing compares as
null, i.e. below every number and equal across documents). -/
def keyD (key : String) (v : StoredVideo) : Nat := (fieldVal v key).getD 0

/-- Stable insertion for a descending sort on `key`: `x` is placed before the
first element whose key is strictly smaller, so documents with equal keys keep
their relative order. -/
def insertDescBy (key : String) (x : StoredVideo) : List StoredVideo → List StoredVideo
  | [] => [x]
  | y :: ys =>
    if keyD key y < keyD key x then x :: y :: ys else y :: insertDescBy key x ys

/-- Stable descending sort on `key`, modelling `.sort({ key: -1 })`. -/
def sortDescBy (key : String) (docs : List StoredVideo) : List StoredVideo :=
  docs.foldl (fun acc v => insertDescBy key v acc) []

/-- Responses of the video GET route: 200 with the (possibly empty) list, or
the catch branch. -/
inductive VideoGetRes where
  | list (vs : List StoredVideo)
  | fetchError
deriving DecidableEq, Repr

/-- The video GET handler: `await connectToDB()`, then
`Video.find({}).sort({ cretedAt: -1 })` — the sort key in the source is the
misspelling `cretedAt` — and an explicit `[]` with status 200 when the result
is empty. -/
def videoGET (store : List StoredVideo) : VideoGetRes × List StoreAction :=
  let videos := sortDescBy "cretedAt" store
  if videos.isEmpty then (VideoGetRes.list [], [StoreAction.acquire])
  else (VideoGetRes.list videos, [StoreAction.acquire])

/-! ## Register route (first file of src/unnamed/part_002) and user model -/

/-- A persisted user document. -/
structure StoredUser where
  email : String
  password : String
deriving DecidableEq, Repr

/-- Responses of the register POST route, in source order: 400 invalid input,
400 user already exists, 200 registration successful, and the catch-all 400
failure. -/
inductive RegisterRes where
  | invalidInput
  | userExists
  | registered
  | registerFailed
deriving DecidableEq, Repr

/-- Split a character list at the first occurrence of `c`. -/
def breakAt (c : Char) : List Char → Option (List Char × List Char)
  | [] => none
  | x :: xs =>
    if x == c then some ([], xs)
    else
      match breakAt c xs with
      | none => none
      | some (l, r) => some (x :: l, r)

/-- Modelled from the external zod validator `z.string().email()` to the
extent the claims exercise it: the string must be of the shape
local@domain with a nonempty local part, no second at-sign, and a domain with
a dot separating two nonempty pieces.  (The exact regex of the library is
irrelevant here; only that addresses such as a@x.com are accepted.) -/
def zodEmailOk (s : String) : Bool :=
  match breakAt '@' s.toList with
  | none => false
  | some (lp, dp) =>
    !lp.isEmpty && !dp.isEmpty && !(lp.contains '@') && !(dp.contains '@') &&
      (match breakAt '.' dp with
       | none => false
       | some (d1, d2) => !d1.isEmpty && !d2.isEmpty)

/-- Mongoose `User.create` as invoked by the register route, which passes the
two raw strings `email` and `password` as separate arguments instead of one
document object: mongoose treats each argument as a document to hydrate, so
neither resulting document has its required `email` and `password` paths set
and creation rejects without storing anything.  (Compare the correct call
`User.create({ email, password })` shown in the narrative files
src/unnamed/part_004 and part_005.) -/
def userCreateRaw (_store : List StoredUser) (_rawEmail _rawPassword : String) :
    Except String (List StoredUser) :=
  Except.error "ValidationError"

/-- The register POST handler: zod validation of `{ email, password }` (email
format, password length at least 6), `connectToDB()`, duplicate check via
`User.findOne({ email })`, then `User.create(email, password)` — with the raw
string arguments of the source — inside the try/catch whose catch branch
answers the generic 400 failure. -/
def registerPOST (store : List StoredUser) (email password : String) :
    List StoredUser × RegisterRes :=
  if !(zodEmailOk email && decide (6 ≤ password.length)) then
    (store, RegisterRes.invalidInput)
  else if store.any (fun u => u.email == email) then
    (store, RegisterRes.userExists)
  else
    match userCreateRaw store email password with
    | Except.ok st2 => (st2, RegisterRes.registered)
    | Except.error _ => (store, RegisterRes.registerFailed)

/-- A user document about to be saved, together with mongoose's modified-path
tracking (`isModified`); on a freshly created document every set path counts
as modified. -/
structure UserDoc where
  email : String
  password : String
deriving DecidableEq, Repr

/-- The `userSchema.pre("save")` hook of src/unnamed/part_001: if the
`password` path is modified, replace it by `bcrypt.hash(password, 10)`
(the hash function is the external bcrypt collaborator, passed as a
parameter); every other field is left untouched, and `next()` proceeds with
the save. -/
def preSave (hashFn : String → String) (modifiedPaths : List String)
    (u : UserDoc) : UserDoc :=
  if modifiedPaths.contains "password" then
    { u with password := hashFn u.password }
  else u

/-! ## Lemmas about the connection cache -/

theorem nodup_all_eq_length_le_one {l : List Nat} (hn : l.Nodup)
    (h : ∀ x ∈ l, ∀ y ∈ l, x = y) : l.length ≤ 1 := by
  match l with
  | [] => simp
  | [x] => simp
  | x :: y :: t =>
    exfalso
    have hxy : x = y := h x (by simp) y (by simp)
    have hx : x ∉ y :: t := (List.nodup_cons.mp hn).1
    exact hx (by simp [hxy])

theorem mem_outstanding {s : CacheState} {a : Nat} :
    a ∈ outstanding s ↔ a ∈ s.startedAttempts ∧ isResolved s a = false := by
  simp [outstanding, List.mem_filter]

theorem cacheInv_init : CacheInv initCache := by
  constructor <;> simp [initCache, outstanding, isResolved]

theorem cacheInv_step {s : CacheState} (h : CacheInv s) (e : Event) :
    CacheInv (step s e) := by
  obtain ⟨conn, promise, nextId, started, resolved, waiters, results, writes⟩ := s
  cases e with
  | call cid =>
    cases conn with
    | some c =>
      exact ⟨h.started_nodup, h.started_lt, h.resolved_started, h.promise_started,
             h.out_promise, h.out_conn, h.conn_last, h.writes_le, h.writes_success⟩
    | none =>
      cases promise with
      | some a =>
        exact ⟨h.started_nodup, h.started_lt, h.resolved_started, h.promise_started,
               h.out_promise, h.out_conn, h.conn_last, h.writes_le, h.writes_success⟩
      | none =>
        show CacheInv ⟨none, some nextId, nextId + 1, started ++ [nextId], resolved,
          waiters ++ [(cid, nextId)], results, writes⟩
        refine ⟨?_, ?_, ?_, ?_, ?_, ?_, h.conn_last, h.writes_le, h.writes_success⟩
        · refine List.nodup_append.mpr ⟨h.started_nodup, List.nodup_singleton _, ?_⟩
          intro x hx hy
          have hlt : x < nextId := h.started_lt x hx
          simp at hy
          omega
        · intro x hx
          rcases List.mem_append.mp hx with hx2 | hx2
          · exact Nat.lt_succ_of_lt (h.started_lt x hx2)
          · simp at hx2
            subst hx2
            exact Nat.lt_succ_self _
        · intro p hp
          exact List.mem_append_left _ (h.resolved_started p hp)
        · intro x hx
          injection hx with hx
          subst hx
          exact List.mem_append_right _ (by simp)
        · intro x hx
          rw [mem_outstanding] at hx
          obtain ⟨hmem, hres⟩ := hx
          rcases List.mem_append.mp hmem with hx2 | hx2
          · exact absurd (h.out_promise x (mem_outstanding.mpr ⟨hx2, hres⟩))
              (by simp)
          · simp at hx2
            simp [hx2]
        · intro _
          rfl
  | resolve o =>
    cases promise with
    | none => exact h
    | some a =>
      have hstart : a ∈ started := h.promise_started a rfl
      by_cases hres : isResolved ⟨conn, some a, nextId, started, resolved,
          waiters, results, writes⟩ a
      · simp only [step, hres, if_true]
        exact h
      · have hres2 : isResolved ⟨conn, some a, nextId, started, resolved,
            waiters, results, writes⟩ a = false := by
          simpa using hres
        have hout : a ∈ outstanding ⟨conn, some a, nextId, started, resolved,
            waiters, results, writes⟩ := mem_outstanding.mpr ⟨hstart, hres2⟩
        have hconn : conn = none :=
          h.out_conn (List.ne_nil_of_mem hout)
        -- after the pending attempt resolves, no attempt is outstanding
        have houtnil : ∀ (o2 : Outcome),
            started.filter
              (fun x => ! (resolved ++ [(a, o2)]).any (fun p => p.1 == x)) = [] := by
          intro o2
          rw [List.filter_eq_nil_iff]
          intro x hxs
          by_cases hax : a = x
          · simp [hax, List.any_append]
          · have hxout : x ∉ outstanding ⟨conn, some a, nextId, started, resolved,
                waiters, results, writes⟩ := by
              intro hmem
              have h2 := h.out_promise x hmem
              simp at h2
              exact hax h2
            have hres3 : resolved.any (fun p => p.1 == x) = true := by
              by_contra hf
              have hb : resolved.any (fun p => p.1 == x) = false :=
                Bool.eq_false_iff.mpr hf
              exact hxout (mem_outstanding.mpr ⟨hxs, hb⟩)
            simp [List.any_append, hres3]
        cases o with
        | success c =>
          have hwnil : writes = [] := by
            have hcl := h.conn_last
            rw [hconn] at hcl
            exact List.getLast?_eq_none_iff.mp hcl.symm
          have hstep : step ⟨conn, some a, nextId, started, resolved, waiters,
              results, writes⟩ (Event.resolve (Outcome.success c)) =
              ⟨some c, some a, nextId, started,
               resolved ++ [(a, Outcome.success c)],
               waiters.filter (fun w => w.2 != a),
               results ++ (waiters.filter (fun w => w.2 == a)).map
                 (fun w => (w.1, jsResult (Outcome.success c))),
               writes ++ [c]⟩ := by
            simp [step, hres2]
          rw [hstep]
          refine ⟨h.started_nodup, h.started_lt, ?_, ?_, ?_, ?_, ?_, ?_, ?_⟩
          · intro p hp
            rcases List.mem_append.mp hp with hp2 | hp2
            · exact h.resolved_started p hp2
            · simp at hp2
              simp [hp2, hstart]
          · intro x hx
            injection hx with hx
            subst hx
            exact hstart
          · intro x hx
            have hx2 : x ∈ started.filter
                (fun y => ! (resolved ++ [(a, Outcome.success c)]).any
                  (fun p => p.1 == y)) := hx
            rw [houtnil (Outcome.success c)] at hx2
            simp at hx2
          · intro hne
            exact absurd (houtnil (Outcome.success c)) hne
          · subst hwnil
            simp [List.getLast?]
          · subst hwnil
            simp
          · intro x hx
            subst hwnil
            simp at hx
            subst hx
            exact ⟨a, by simp⟩
        | failure =>
          have hstep : step ⟨conn, some a, nextId, started, resolved, waiters,
              results, writes⟩ (Event.resolve Outcome.failure) =
              ⟨conn, none, nextId, started,
               resolved ++ [(a, Outcome.failure)],
               waiters.filter (fun w => w.2 != a),
               results ++ (waiters.filter (fun w => w.2 == a)).map
                 (fun w => (w.1, jsResult Outcome.failure)),
               writes⟩ := by
            simp [step, hres2]
          rw [hstep]
          refine ⟨h.started_nodup, h.started_lt, ?_, ?_, ?_, ?_, h.conn_last,
                  h.writes_le, ?_⟩
          · intro p hp
            rcases List.mem_append.mp hp with hp2 | hp2
            · exact h.resolved_started p hp2
            · simp at hp2
              simp [hp2, hstart]
          · intro x hx
            exact absurd hx (by simp)
          · intro x hx
            have hx2 : x ∈ started.filter
                (fun y => ! (resolved ++ [(a, Outcome.failure)]).any
                  (fun p => p.1 == y)) := hx
            rw [houtnil Outcome.failure] at hx2
            simp at hx2
          · intro hne
            exact absurd (houtnil Outcome.failure) hne
          · intro x hx
            obtain ⟨a2, ha2⟩ := h.writes_success x hx
            exact ⟨a2, List.mem_append_left _ ha2⟩

theorem cacheInv_foldl (es : List Event) (s : CacheState) (h : CacheInv s) :
    CacheInv (es.foldl step s) := by
  induction es generalizing s with
  | nil => exact h
  | cons e rest ih => exact ih _ (cacheInv_step h e)

theorem cacheInv_run (es : List Event) : CacheInv (run es) :=
  cacheInv_foldl es initCache cacheInv_init

theorem outstanding_length_le_one (es : List Event) :
    (outstanding (run es)).length ≤ 1 := by
  have h := cacheInv_run es
  refine nodup_all_eq_length_le_one (h.started_nodup.filter _) ?_
  intro x hx y hy
  have hx2 := h.out_promise x hx
  have hy2 := h.out_promise y hy
  rw [hx2] at hy2
  exact Option.some.inj hy2

theorem run_append_single (es : List Event) (e : Event) :
    run (es ++ [e]) = step (run es) e := by
  simp [run, List.foldl_append]

theorem run_calls (n : Nat) (hn : 1 ≤ n) :
    run (calls n) =
      ⟨none, some 0, 1, [0], [], (List.range n).map (fun i => (i, 0)), [], []⟩ := by
  induction n with
  | zero => omega
  | succ m ih =>
    rcases Nat.lt_or_ge m 1 with h1 | h1
    · have hm : m = 0 := by omega
      subst hm
      decide
    · have hsplit : calls (m + 1) = calls m ++ [Event.call m] := by
        simp [calls, List.range_succ]
      rw [hsplit, run_append_single, ih h1]
      simp [step, List.range_succ]

theorem run_calls_resolve (n : Nat) (hn : 1 ≤ n) (o : Outcome) :
    (run (calls n ++ [Event.resolve o])).startedAttempts = [0] ∧
    (run (calls n ++ [Event.resolve o])).results.length = n ∧
    ∀ r ∈ (run (calls n ++ [Event.resolve o])).results, r.2 = jsResult o := by
  rw [run_append_single, run_calls n hn]
  have hfil : ((List.range n).map (fun i => (i, 0))).filter
      (fun w : Nat × Nat => w.2 == 0) = (List.range n).map (fun i => (i, 0)) := by
    rw [List.filter_eq_self]
    intro w hw
    obtain ⟨i, hi, rfl⟩ := List.mem_map.mp hw
    simp
  cases o <;>
    simp [step, isResolved, hfil, jsResult, List.mem_map]

theorem step_resolve_success_spec (s : CacheState) (a c : Nat)
    (hp : s.promise = some a) (hr : isResolved s a = false) :
    (step s (Event.resolve (Outcome.success c))).conn = some c ∧
    (step s (Event.resolve (Outcome.success c))).promise = some a ∧
    (step s (Event.resolve (Outcome.success c))).results =
      s.results ++ (s.waiters.filter (fun w => w.2 == a)).map
        (fun w => (w.1, CallRes.ret none)) := by
  obtain ⟨conn, promise, nextId, started, resolved, waiters, results, writes⟩ := s
  cases promise with
  | none => exact absurd hp (by simp)
  | some a2 =>
    have ha : a2 = a := by simpa using hp
    subst ha
    refine ⟨?_, ?_, ?_⟩ <;> simp [step, hr, jsResult]

theorem step_resolve_failure_spec (s : CacheState) (a : Nat)
    (hp : s.promise = some a) (hr : isResolved s a = false) :
    (step s (Event.resolve Outcome.failure)).promise = none ∧
    (step s (Event.resolve Outcome.failure)).conn = s.conn ∧
    (step s (Event.resolve Outcome.failure)).results =
      s.results ++ (s.waiters.filter (fun w => w.2 == a)).map
        (fun w => (w.1, CallRes.thrown)) ∧
    (step s (Event.resolve Outcome.failure)).startedAttempts = s.startedAttempts ∧
    (step s (Event.resolve Outcome.failure)).nextId = s.nextId := by
  obtain ⟨conn, promise, nextId, started, resolved, waiters, results, writes⟩ := s
  cases promise with
  | none => exact absurd hp (by simp)
  | some a2 =>
    have ha : a2 = a := by simpa using hp
    subst ha
    refine ⟨?_, ?_, ?_, ?_, ?_⟩ <;> simp [step, hr, jsResult]

theorem step_call_hit (s : CacheState) (c k : Nat) (hc : s.conn = some c) :
    (step s (Event.call k)).results = s.results ++ [(k, CallRes.ret (some c))] := by
  obtain ⟨conn, promise, nextId, started, resolved, waiters, results, writes⟩ := s
  cases conn with
  | none => exact absurd hc (by simp)
  | some c2 =>
    have : c2 = c := by simpa using hc
    subst this
    simp [step]

theorem step_call_start (s : CacheState) (k : Nat) (hc : s.conn = none)
    (hp : s.promise = none) :
    (step s (Event.call k)).startedAttempts = s.startedAttempts ++ [s.nextId] ∧
    (step s (Event.call k)).promise = some s.nextId := by
  obtain ⟨conn, promise, nextId, started, resolved, waiters, results, writes⟩ := s
  cases conn with
  | some c2 => exact absurd hc (by simp)
  | none =>
    cases promise with
    | some a2 => exact absurd hp (by simp)
    | none => exact ⟨rfl, rfl⟩

/-! ## Claims about the connection cache -/

/-- Claim C1: for the connection cache state, every reachable state under any
sequence of acquire steps has at most one connection attempt outstanding, the
handle is assigned at most once and only with a value produced by a
successfully resolved pending attempt; and for any number N of acquire calls
all issued before the first attempt resolves, exactly one underlying connect
is performed and all N calls observe the same outcome. -/
theorem C1_single_attempt_invariant :
    (∀ es : List Event,
        (outstanding (run es)).length ≤ 1 ∧
        (run es).connWrites.length ≤ 1 ∧
        ∀ c ∈ (run es).connWrites,
          ∃ a, (a, Outcome.success c) ∈ (run es).resolvedAttempts) ∧
    ∀ n : Nat, 1 ≤ n → ∀ o : Outcome,
        (run (calls n ++ [Event.resolve o])).startedAttempts.length = 1 ∧
        (run (calls n ++ [Event.resolve o])).results.length = n ∧
        ∀ r ∈ (run (calls n ++ [Event.resolve o])).results, r.2 = jsResult o := by
  constructor
  · intro es
    exact ⟨outstanding_length_le_one es, (cacheInv_run es).writes_le,
           (cacheInv_run es).writes_success⟩
  · intro n hn o
    obtain ⟨h1, h2, h3⟩ := run_calls_resolve n hn o
    exact ⟨by rw [h1]; rfl, h2, h3⟩

/-- Witness for C1 at concrete inputs: a two-call trace keeps the outstanding
count at most one, and three calls issued before the shared attempt resolves
all finish with exactly one started attempt. -/
theorem C1_single_attempt_invariant_witness :
    (outstanding (run [Event.call 0, Event.call 1])).length ≤ 1 ∧
    (run (calls 3 ++ [Event.resolve (Outcome.success 7)])).startedAttempts.length = 1 ∧
    (run (calls 3 ++ [Event.resolve (Outcome.success 7)])).results.length = 3 := by
  refine ⟨(C1_single_attempt_invariant.1 [Event.call 0, Event.call 1]).1, ?_, ?_⟩
  · exact (C1_single_attempt_invariant.2 3 (by decide) (Outcome.success 7)).1
  · exact (C1_single_attempt_invariant.2 3 (by decide) (Outcome.success 7)).2.1

/-- Claim C2 counterexample: run one acquire call and let its attempt resolve
successfully with connection 7.  The handle is stored, but `cached.promise` is
not cleared (the source only nulls it in the catch block), and the awaiting
call receives `undefined` (the function body has no return statement after
the try block), not the connection. -/
theorem C2_counterexample :
    (run [Event.call 0, Event.resolve (Outcome.success 7)]).conn = some 7 ∧
    (run [Event.call 0, Event.resolve (Outcome.success 7)]).promise ≠ none ∧
    (run [Event.call 0, Event.resolve (Outcome.success 7)]).results =
      [(0, CallRes.ret none)] ∧
    (0, CallRes.ret (some 7)) ∉
      (run [Event.call 0, Event.resolve (Outcome.success 7)]).results := by
  decide

/-- Claim C2 (amended): for every acquire call whose underlying connection
attempt succeeds, the call stores the resulting connection into the handle,
leaves `pending` holding the now-resolved attempt (it is not cleared), and
returns `undefined` to every caller that awaited the attempt; only a
subsequent acquire call returns the cached connection. -/
theorem C2_success_stores_handle (es : List Event) (a c : Nat)
    (hp : (run es).promise = some a)
    (hr : isResolved (run es) a = false) :
    (step (run es) (Event.resolve (Outcome.success c))).conn = some c ∧
    (step (run es) (Event.resolve (Outcome.success c))).promise = some a ∧
    (step (run es) (Event.resolve (Outcome.success c))).results =
      (run es).results ++
        ((run es).waiters.filter (fun w => w.2 == a)).map
          (fun w => (w.1, CallRes.ret none)) ∧
    ∀ k, (step (step (run es) (Event.resolve (Outcome.success c)))
        (Event.call k)).results =
      (step (run es) (Event.resolve (Outcome.success c))).results ++
        [(k, CallRes.ret (some c))] := by
  obtain ⟨h1, h2, h3⟩ := step_resolve_success_spec (run es) a c hp hr
  exact ⟨h1, h2, h3, fun k => step_call_hit _ c k h1⟩

/-- Witness for C2 (amended) at the concrete trace of one call resolving
successfully with connection 7, followed by the call of caller 1. -/
theorem C2_success_stores_handle_witness :
    (step (run [Event.call 0]) (Event.resolve (Outcome.success 7))).conn = some 7 ∧
    (step (step (run [Event.call 0]) (Event.resolve (Outcome.success 7)))
        (Event.call 1)).results =
      (step (run [Event.call 0]) (Event.resolve (Outcome.success 7))).results ++
        [(1, CallRes.ret (some 7))] := by
  have h := C2_success_stores_handle [Event.call 0] 0 7 (by decide) (by decide)
  exact ⟨h.1, h.2.2.2 1⟩

/-- Claim C3: for every acquire call whose underlying attempt fails, the
failure clears `pending`, leaves the handle unset, and propagates the failure
(a thrown error) to every caller awaiting the attempt; and a subsequent
acquire call afterwards starts a fresh connection attempt. -/
theorem C3_failure_clears_pending (es : List Event) (a : Nat)
    (hp : (run es).promise = some a)
    (hr : isResolved (run es) a = false) :
    (step (run es) (Event.resolve Outcome.failure)).promise = none ∧
    (step (run es) (Event.resolve Outcome.failure)).conn = none ∧
    (step (run es) (Event.resolve Outcome.failure)).results =
      (run es).results ++
        ((run es).waiters.filter (fun w => w.2 == a)).map
          (fun w => (w.1, CallRes.thrown)) ∧
    ∀ k, (step (step (run es) (Event.resolve Outcome.failure))
        (Event.call k)).startedAttempts =
      (run es).startedAttempts ++ [(run es).nextId] := by
  have hinv := cacheInv_run es
  have hconn : (run es).conn = none := by
    apply hinv.out_conn
    apply List.ne_nil_of_mem (a := a)
    rw [mem_outstanding]
    exact ⟨hinv.promise_started a hp, hr⟩
  obtain ⟨h1, h2, h3, h4, h5⟩ := step_resolve_failure_spec (run es) a hp hr
  refine ⟨h1, by rw [h2, hconn], h3, ?_⟩
  intro k
  obtain ⟨h6, _⟩ := step_call_start (step (run es) (Event.resolve Outcome.failure)) k
      (by rw [h2, hconn]) h1
  rw [h6, h4, h5]

/-- Witness for C3 at the concrete trace of one call whose attempt fails,
followed by a retry from caller 1: the pending promise is cleared, the caller
observes the thrown error, and the retry starts attempt number 1. -/
theorem C3_failure_clears_pending_witness :
    (step (run [Event.call 0]) (Event.resolve Outcome.failure)).promise = none ∧
    (step (run [Event.call 0]) (Event.resolve Outcome.failure)).results =
      (run [Event.call 0]).results ++
        (((run [Event.call 0]).waiters.filter (fun w => w.2 == 0)).map
          (fun w => (w.1, CallRes.thrown))) ∧
    (step (step (run [Event.call 0]) (Event.resolve Outcome.failure))
        (Event.call 1)).startedAttempts =
      (run [Event.call 0]).startedAttempts ++ [(run [Event.call 0]).nextId] := by
  have h := C3_failure_clears_pending [Event.call 0] 0 (by decide) (by decide)
  exact ⟨h.1, h.2.2.1, h.2.2.2 1⟩

/-! ## Lemmas about the video route handlers -/

theorem isFalsy_false_of_required {x : Option String} (h : requiredOk x = true) :
    isFalsyStr x = false := by
  cases x with
  | none => simp [requiredOk] at h
  | some s => simpa [requiredOk, isFalsyStr] using h

theorem videoCreate_ok_fields {store st2 : List StoredVideo} {now : Nat}
    {d : VideoData} {v : StoredVideo}
    (h : videoCreate store now d = Except.ok (st2, v)) :
    v.height = d.height ∧ v.width = d.width ∧ v.quality = d.quality := by
  simp only [videoCreate] at h
  split at h
  · simp only [Except.ok.injEq, Prod.mk.injEq] at h
    obtain ⟨h1, h2⟩ := h
    subst h2
    exact ⟨rfl, rfl, rfl⟩
  · cases h

theorem falsy_check_false {body : VideoBody}
    (ht : requiredOk body.title = true)
    (hv : requiredOk body.videoURL = true)
    (hu : requiredOk body.thumbnailURL = true) :
    (isFalsyStr body.title || isFalsyStr body.thumbnailURL ||
      isFalsyStr body.videoURL || isFalsyStr body.thumbnailURL) = false := by
  simp [isFalsy_false_of_required ht, isFalsy_false_of_required hu,
        isFalsy_false_of_required hv]

theorem videoPOST_ok (store : List StoredVideo) (now : Nat) (body : VideoBody)
    (ht : requiredOk body.title = true) (hd : requiredOk body.description = true)
    (hv : requiredOk body.videoURL = true) (hu : requiredOk body.thumbnailURL = true)
    (h1 : 1 ≤ (body.transformations.bind (fun t => t.quality)).getD 100)
    (h2 : (body.transformations.bind (fun t => t.quality)).getD 100 ≤ 100) :
    videoPOST true store now body =
      (VideoPostRes.created
        ⟨body.title.getD "", body.description.getD "", body.videoURL.getD "",
         body.thumbnailURL.getD "", body.controls.getD true, 1920, 1080,
         (body.transformations.bind (fun t => t.quality)).getD 100, now⟩,
       store ++
        [⟨body.title.getD "", body.description.getD "", body.videoURL.getD "",
          body.thumbnailURL.getD "", body.controls.getD true, 1920, 1080,
          (body.transformations.bind (fun t => t.quality)).getD 100, now⟩],
       [StoreAction.acquire, StoreAction.write]) := by
  simp [videoPOST, falsy_check_false ht hv hu, videoCreate, ht, hd, hv, hu, h1, h2]

theorem videoPOST_invalid_quality (store : List StoredVideo) (now : Nat)
    (body : VideoBody) (q : Nat)
    (ht : requiredOk body.title = true)
    (hv : requiredOk body.videoURL = true) (hu : requiredOk body.thumbnailURL = true)
    (hq : body.transformations.bind (fun t => t.quality) = some q)
    (hbad : q < 1 ∨ 100 < q) :
    videoPOST true store now body =
      (VideoPostRes.uploadFailed, store, [StoreAction.acquire, StoreAction.write]) := by
  rcases hbad with hb | hb
  · have hn : ¬ 1 ≤ q := by omega
    simp [videoPOST, falsy_check_false ht hv hu, videoCreate, hq, hn]
  · have hn : ¬ q ≤ 100 := by omega
    simp [videoPOST, falsy_check_false ht hv hu, videoCreate, hq, hn]

/-! ## Claims about the video routes -/

/-- Claim C4 (code bug in the source): the field check of the video POST
handler tests `thumbnailURL` twice and never tests `description`, so an
authenticated candidate whose `description` is empty passes the handler
validation, `Video.create` is invoked (the candidate reaches the store
layer), the schema-level `required` validator rejects it, and the route
answers the catch-all 500 response instead of the 400 validation failure;
the store itself remains unchanged. -/
theorem C4_description_not_validated :
    videoPOST true [] 0 ⟨some "t", some "", some "v", some "u", none, none⟩ =
      (VideoPostRes.uploadFailed, [], [StoreAction.acquire, StoreAction.write]) ∧
    (videoPOST true [] 0 ⟨some "t", some "", some "v", some "u", none, none⟩).1 ≠
      VideoPostRes.missingFields ∧
    StoreAction.write ∈
      (videoPOST true [] 0 ⟨some "t", some "", some "v", some "u", none, none⟩).2.2 := by
  decide

/-- Claim C5 counterexample: supplying a quality of 150 (or of 0) does not
persist a clamped value; the schema validators `min: 1, max: 100` reject the
document, `Video.create` throws, the route answers the 500 response and
nothing is stored. -/
theorem C5_counterexample :
    videoPOST true [] 0 ⟨some "t", some "d", some "v", some "u", none,
        some ⟨none, none, some 150⟩⟩ =
      (VideoPostRes.uploadFailed, [], [StoreAction.acquire, StoreAction.write]) ∧
    videoPOST true [] 0 ⟨some "t", some "d", some "v", some "u", none,
        some ⟨none, none, some 0⟩⟩ =
      (VideoPostRes.uploadFailed, [], [StoreAction.acquire, StoreAction.write]) := by
  decide

/-- Claim C5 (amended): for every create call with valid required fields, an
absent quality persists as the default 100, a supplied quality inside [1,100]
is persisted unchanged, and a supplied quality outside [1,100] is not clamped
but rejected by the schema validators, so the creation fails and no record is
persisted. -/
theorem C5_quality_default_and_validators (store : List StoredVideo) (now : Nat)
    (body : VideoBody)
    (ht : requiredOk body.title = true) (hd : requiredOk body.description = true)
    (hv : requiredOk body.videoURL = true) (hu : requiredOk body.thumbnailURL = true) :
    (∀ q, body.transformations.bind (fun t => t.quality) = some q →
        1 ≤ q → q ≤ 100 →
        ∃ v st, videoPOST true store now body =
            (VideoPostRes.created v, st, [StoreAction.acquire, StoreAction.write]) ∧
          v.quality = q) ∧
    (body.transformations.bind (fun t => t.quality) = none →
        ∃ v st, videoPOST true store now body =
            (VideoPostRes.created v, st, [StoreAction.acquire, StoreAction.write]) ∧
          v.quality = 100) ∧
    (∀ q, body.transformations.bind (fun t => t.quality) = some q →
        (q < 1 ∨ 100 < q) →
        videoPOST true store now body =
          (VideoPostRes.uploadFailed, store,
           [StoreAction.acquire, StoreAction.write])) := by
  refine ⟨?_, ?_, ?_⟩
  · intro q hq hq1 hq2
    have h := videoPOST_ok store now body ht hd hv hu
      (by rw [hq]; simpa using hq1) (by rw [hq]; simpa using hq2)
    rw [hq] at h
    exact ⟨_, _, h, rfl⟩
  · intro hq
    have h := videoPOST_ok store now body ht hd hv hu
      (by rw [hq]; simp) (by rw [hq]; simp)
    rw [hq] at h
    exact ⟨_, _, h, rfl⟩
  · intro q hq hbad
    exact videoPOST_invalid_quality store now body q ht hv hu hq hbad

/-- Witness for C5 (amended) at concrete inputs: quality 42 is persisted
unchanged, an absent quality persists as 100, and quality 150 fails. -/
theorem C5_quality_default_and_validators_witness :
    (∃ v st, videoPOST true [] 0 ⟨some "t", some "d", some "v", some "u", none,
        some ⟨none, none, some 42⟩⟩ =
        (VideoPostRes.created v, st, [StoreAction.acquire, StoreAction.write]) ∧
      v.quality = 42) ∧
    videoPOST true [] 0 ⟨some "t", some "d", some "v", some "u", none,
        some ⟨none, none, some 150⟩⟩ =
      (VideoPostRes.uploadFailed, [], [StoreAction.acquire, StoreAction.write]) := by
  constructor
  · exact (C5_quality_default_and_validators [] 0
      ⟨some "t", some "d", some "v", some "u", none, some ⟨none, none, some 42⟩⟩
      (by decide) (by decide) (by decide) (by decide)).1 42 (by decide)
      (by decide) (by decide)
  · exact (C5_quality_default_and_validators [] 0
      ⟨some "t", some "d", some "v", some "u", none, some ⟨none, none, some 150⟩⟩
      (by decide) (by decide) (by decide) (by decide)).2.2 150 (by decide)
      (by decide)

/-- Claim C6: every successfully persisted record carries the fixed portrait
dimensions height 1920 and width 1080, regardless of any candidate-supplied
transformation values: the handler overwrites both fields unconditionally. -/
theorem C6_unconditional_dimensions (hs : Bool) (store : List StoredVideo)
    (now : Nat) (body : VideoBody) (v : StoredVideo) (st : List StoredVideo)
    (tr : List StoreAction)
    (h : videoPOST hs store now body = (VideoPostRes.created v, st, tr)) :
    v.height = 1920 ∧ v.width = 1080 := by
  simp only [videoPOST] at h
  split at h
  · split at h
    · exact absurd h (by simp)
    · split at h
      next st2 v2 heq =>
        obtain ⟨hh, hw, _⟩ := videoCreate_ok_fields heq
        simp only [Prod.mk.injEq, VideoPostRes.created.injEq] at h
        obtain ⟨hv2, _⟩ := h
        subst hv2
        exact ⟨hh, hw⟩
      next heq => exact absurd h (by simp)
  · exact absurd h (by simp)

/-- Witness for C6: a candidate supplying explicit height 5, width 6 and
quality 7 still persists with height 1920 and width 1080. -/
theorem C6_unconditional_dimensions_witness :
    (⟨"t", "d", "v", "u", false, 1920, 1080, 7, 0⟩ : StoredVideo).height = 1920 ∧
    (⟨"t", "d", "v", "u", false, 1920, 1080, 7, 0⟩ : StoredVideo).width = 1080 :=
  C6_unconditional_dimensions true [] 0
    ⟨some "t", some "d", some "v", some "u", some false,
     some ⟨some 5, some 6, some 7⟩⟩
    ⟨"t", "d", "v", "u", false, 1920, 1080, 7, 0⟩
    [⟨"t", "d", "v", "u", false, 1920, 1080, 7, 0⟩]
    [StoreAction.acquire, StoreAction.write]
    (by decide)

/-- Claim C7 (code bug in the source): listing answers an empty store with an
empty 200 list, but the sort key of `Video.find({}).sort({ cretedAt: -1 })`
is a misspelling of the schema field `createdAt`, so every document compares
equal and the response preserves natural (insertion) order instead of
most-recent-first: with two documents created at times 1 and 2 and stored
oldest first, the response keeps the older one first, while sorting on the
intended key `createdAt` would put the newer one first. -/
theorem C7_sort_key_misspelled :
    videoGET [] = (VideoGetRes.list [], [StoreAction.acquire]) ∧
    videoGET [⟨"a", "da", "va", "ua", true, 1920, 1080, 100, 1⟩,
              ⟨"b", "db", "vb", "ub", true, 1920, 1080, 100, 2⟩] =
      (VideoGetRes.list [⟨"a", "da", "va", "ua", true, 1920, 1080, 100, 1⟩,
                         ⟨"b", "db", "vb", "ub", true, 1920, 1080, 100, 2⟩],
       [StoreAction.acquire]) ∧
    sortDescBy "createdAt" [⟨"a", "da", "va", "ua", true, 1920, 1080, 100, 1⟩,
                            ⟨"b", "db", "vb", "ub", true, 1920, 1080, 100, 2⟩] =
      [⟨"b", "db", "vb", "ub", true, 1920, 1080, 100, 2⟩,
       ⟨"a", "da", "va", "ua", true, 1920, 1080, 100, 1⟩] := by
  decide

/-- Claim C8 counterexample: an authenticated request with an empty title is
rejected by validation, yet the connection has already been acquired — the
handler calls `connectToDB()` before parsing and validating the body, so the
claim that no connection acquisition occurs before validation rejects the
candidate is false. -/
theorem C8_counterexample :
    videoPOST true [] 0 ⟨some "", some "d", some "v", some "u", none, none⟩ =
      (VideoPostRes.missingFields, [], [StoreAction.acquire]) ∧
    StoreAction.acquire ∈
      (videoPOST true [] 0
        ⟨some "", some "d", some "v", some "u", none, none⟩).2.2 := by
  decide

/-- Claim C8 (amended): the handler acquires the database connection before
validating, so a malformed candidate is rejected only after acquisition; but
validation does happen before any store write, so a candidate failing the
field check never reaches `Video.create` and the store is unchanged. -/
theorem C8_validation_before_write (store : List StoredVideo) (now : Nat)
    (body : VideoBody)
    (hbad : (isFalsyStr body.title || isFalsyStr body.thumbnailURL ||
        isFalsyStr body.videoURL || isFalsyStr body.thumbnailURL) = true) :
    videoPOST true store now body =
      (VideoPostRes.missingFields, store, [StoreAction.acquire]) ∧
    StoreAction.write ∉ (videoPOST true store now body).2.2 ∧
    StoreAction.acquire ∈ (videoPOST true store now body).2.2 := by
  have h : videoPOST true store now body =
      (VideoPostRes.missingFields, store, [StoreAction.acquire]) := by
    simp [videoPOST, hbad]
  refine ⟨h, ?_, ?_⟩
  · rw [h]; simp
  · rw [h]; simp

/-- Witness for C8 (amended) at a concrete candidate with an absent title. -/
theorem C8_validation_before_write_witness :
    videoPOST true [] 0 ⟨none, some "d", some "v", some "u", none, none⟩ =
      (VideoPostRes.missingFields, [], [StoreAction.acquire]) :=
  (C8_validation_before_write [] 0 ⟨none, some "d", some "v", some "u", none, none⟩
    (by decide)).1

/-! ## Claims about registration and the password hook -/

/-- Claim C9 (code bug in the source): registering a fresh, well-formed
email never succeeds, because the route calls `User.create(email, password)`
with two raw strings instead of the document `{ email, password }`; mongoose
rejects the hydrated documents (their required `email` and `password` paths
are unset), the catch branch answers the generic 400 failure, and no user is
stored — so a second call with the same email also fails the same way
instead of returning the user-already-exists conflict. -/
theorem C9_register_create_misuse :
    registerPOST [] "a@x.com" "s3cret1" = ([], RegisterRes.registerFailed) ∧
    registerPOST (registerPOST [] "a@x.com" "s3cret1").1 "a@x.com" "s3cret1" =
      ([], RegisterRes.registerFailed) ∧
    (registerPOST [] "a@x.com" "s3cret1").2 ≠ RegisterRes.registered := by
  decide

/-- Claim C10: the pre-save hook replaces the password by the bcrypt hash of
the supplied secret exactly when the password path was created or modified,
leaves every other field (the email) unchanged, and therefore never lets the
plaintext secret reach persistence whenever the hash function changes its
input. -/
theorem C10_presave_hashes_password (hashFn : String → String)
    (modifiedPaths : List String) (u : UserDoc) :
    (modifiedPaths.contains "password" = true →
        (preSave hashFn modifiedPaths u).password = hashFn u.password) ∧
    (modifiedPaths.contains "password" = false →
        preSave hashFn modifiedPaths u = u) ∧
    (preSave hashFn modifiedPaths u).email = u.email ∧
    ((∀ t, hashFn t ≠ t) → modifiedPaths.contains "password" = true →
        (preSave hashFn modifiedPaths u).password ≠ u.password) := by
  refine ⟨?_, ?_, ?_, ?_⟩
  · intro hmod
    simp at hmod
    simp [preSave, hmod]
  · intro hmod
    simp at hmod
    simp [preSave, hmod]
  · by_cases hmod : "password" ∈ modifiedPaths <;> simp [preSave, hmod]
  · intro hinj hmod
    simp at hmod
    simp [preSave, hmod]
    exact hinj u.password

/-- Witness for C10 at a concrete document, hash function and modified-path
set: the stored password is the hash of the secret, the email is unchanged,
an unmodified password is left alone, and the plaintext is not stored. -/
theorem C10_presave_hashes_password_witness :
    (preSave (fun t => "h" ++ t) ["password"] ⟨"a@x.com", "pw"⟩).password =
      "h" ++ "pw" ∧
    (preSave (fun t => "h" ++ t) [] ⟨"a@x.com", "pw"⟩) = ⟨"a@x.com", "pw"⟩ ∧
    (preSave (fun t => "h" ++ t) ["password"] ⟨"a@x.com", "pw"⟩).email =
      "a@x.com" ∧
    (preSave (fun t => "h" ++ t) ["password"] ⟨"a@x.com", "pw"⟩).password ≠
      "pw" := by
  refine ⟨?_, ?_, ?_, ?_⟩
  · exact (C10_presave_hashes_password (fun t => "h" ++ t) ["password"]
      ⟨"a@x.com", "pw"⟩).1 (by decide)
  · exact (C10_presave_hashes_password (fun t => "h" ++ t) []
      ⟨"a@x.com", "pw"⟩).2.1 (by decide)
  · exact (C10_presave_hashes_password (fun t => "h" ++ t) ["password"]
      ⟨"a@x.com", "pw"⟩).2.2.1
  · refine (C10_presave_hashes_password (fun t => "h" ++ t) ["password"]
      ⟨"a@x.com", "pw"⟩).2.2.2 ?_ (by decide)
    intro t hcontra
    have hlen := congrArg String.length hcontra
    have hone : ("h" : String).length = 1 := rfl
    rw [String.length_append, hone] at hlen
    omega
